import Mathlib

/-!
Verification of the attendance-determination core of
fireflies-attendance-filler (src/worker.js).

The core consists of the normalizer `norm`, the activity scorer
(`isActive`, `scoreActive`) and the attendance resolver
(`determineAttendance`).  Every definition below is a shallow embedding
of the corresponding JavaScript function, translated line by line.

JavaScript numbers are modelled as exact rationals extended with the
IEEE special values NaN and positive/negative infinity, which the
core can produce through division by zero in `scoreActive`.  Rounding
of IEEE doubles is not modelled: none of the statements proved below
depends on it (the only exact values compared are literals, values
produced without arithmetic, or NaN/membership in an interval that the
final clamp `Math.max(0.1, Math.min(1.0, s))` establishes exactly).

Strings are Lean strings; `String.trim`/`String.toLower` stand in for
the JavaScript `trim()`/`toLowerCase()` (they agree on the ASCII
strings appearing in any statement below).  JavaScript number-to-string
conversion is modelled exactly on integral values (the only values any
statement below renders); non-integral rationals are rendered as
"num/den", a representation no theorem relies on.

The JavaScript `Map` is modelled as an association list in key
insertion order: `Map.set` on an existing key replaces the value in
place and keeps the key at its original position, exactly as
`mapSet` below does, and `Map.entries()` iterates in that order.
-/

/-- A JavaScript number as far as the core can observe it: an exact
rational, or one of the special values NaN, +Infinity, -Infinity that
division by zero produces. -/
inductive JsNum where
  | nan : JsNum
  | inf : JsNum
  | ninf : JsNum
  | fin : ℚ → JsNum
deriving DecidableEq, Repr

/-- JavaScript division `a / b` of two finite numbers: finite quotient
when `b` is nonzero, otherwise signed infinity, with `0 / 0 = NaN`. -/
def jsDiv (a b : ℚ) : JsNum :=
  if b ≠ 0 then .fin (a / b)
  else if 0 < a then .inf
  else if a < 0 then .ninf
  else .nan

/-- JavaScript `Math.min`: NaN-propagating minimum. -/
def jsMin : JsNum → JsNum → JsNum
  | .nan, _ => .nan
  | _, .nan => .nan
  | .ninf, _ => .ninf
  | _, .ninf => .ninf
  | .inf, y => y
  | x, .inf => x
  | .fin a, .fin b => .fin (min a b)

/-- JavaScript `Math.max`: NaN-propagating maximum. -/
def jsMax : JsNum → JsNum → JsNum
  | .nan, _ => .nan
  | _, .nan => .nan
  | .inf, _ => .inf
  | _, .inf => .inf
  | .ninf, y => y
  | x, .ninf => x
  | .fin a, .fin b => .fin (max a b)

/-- JavaScript addition restricted to the values the core meets. -/
def jsAdd : JsNum → JsNum → JsNum
  | .nan, _ => .nan
  | _, .nan => .nan
  | .inf, .ninf => .nan
  | .ninf, .inf => .nan
  | .inf, _ => .inf
  | _, .inf => .inf
  | .ninf, _ => .ninf
  | _, .ninf => .ninf
  | .fin a, .fin b => .fin (a + b)

/-- JavaScript multiplication by a finite constant. -/
def jsMulC : JsNum → ℚ → JsNum
  | .nan, _ => .nan
  | .inf, c => if 0 < c then .inf else if c < 0 then .ninf else .nan
  | .ninf, c => if 0 < c then .ninf else if c < 0 then .inf else .nan
  | .fin a, c => .fin (a * c)

/-- JavaScript template rendering of a number.  Exact on integers
(the only case any statement below exercises). -/
def ratToJsString (q : ℚ) : String :=
  if q.den = 1 then toString q.num
  else toString q.num ++ "/" ++ toString q.den

/-- Removal of leading and trailing whitespace, on the underlying
character list (semantics of String.trim, stated over data so that the
kernel can evaluate it). -/
def jsTrim (s : String) : String :=
  ⟨((s.data.dropWhile Char.isWhitespace).reverse.dropWhile Char.isWhitespace).reverse⟩

/-- Character-wise lower-casing, on the underlying character list
(semantics of String.toLower). -/
def jsToLower (s : String) : String := ⟨s.data.map Char.toLower⟩

/-- The normalizer from worker.js: norm = (s) => (s || "").trim().toLowerCase(). -/
def norm (s : Option String) : String := jsToLower (jsTrim (s.getD ""))

/-- JavaScript string fallback a || b: an absent or empty string falls
through to the alternative. -/
def jsOrStr (a : Option String) (b : String) : String :=
  match a with
  | some s => if s = "" then b else s
  | none => b

/-- One element of transcript.speakers ({id, name}); the resolver
receives this list but never reads it. -/
structure Speaker where
  id : Option String
  name : Option String
deriving DecidableEq, Repr

/-- One element of transcript.analytics.speakers as the resolver
consumes it; absent fields are none. -/
structure SpeakerAnalytic where
  name : Option String
  user_email : Option String
  word_count : Option ℚ
  duration_sec : Option ℚ
  questions : Option ℚ
  duration_pct : Option ℚ
deriving DecidableEq, Repr

/-- The three activity thresholds passed to determineAttendance. -/
structure ThresholdConfig where
  WORDS_MIN : ℚ
  DURATION_MIN_SEC : ℚ
  QUESTIONS_MIN : ℚ
deriving DecidableEq, Repr

/-- The record determineAttendance builds for each analytics entry:
display = s.name || s.user_email || "Unknown", word_count = s.word_count ?? 0,
duration_sec = s.duration_sec ?? null, questions = s.questions ?? 0,
duration_pct = s.duration_pct ?? null. -/
structure AnalyticsRecord where
  display : String
  word_count : ℚ
  duration_sec : Option ℚ
  questions : ℚ
  duration_pct : Option ℚ
deriving DecidableEq, Repr

/-- One output row of the resolver. -/
structure AttendanceRow where
  person : String
  attended : Bool
  confidence : JsNum
  reason : String
deriving DecidableEq, Repr

/-- Construction of the per-entry record in the first loop of
determineAttendance. -/
def mkRecord (s : SpeakerAnalytic) : AnalyticsRecord where
  display := jsOrStr s.name (jsOrStr s.user_email "Unknown")
  word_count := s.word_count.getD 0
  duration_sec := s.duration_sec
  questions := s.questions.getD 0
  duration_pct := s.duration_pct

/-- Map.set: replace in place when the key exists, else append
(JavaScript Map keeps the original key position on overwrite). -/
def mapSet (m : List (String × AnalyticsRecord)) (k : String) (v : AnalyticsRecord) :
    List (String × AnalyticsRecord) :=
  match m with
  | [] => [(k, v)]
  | (k', v') :: rest => if k' = k then (k, v) :: rest else (k', v') :: mapSet rest k v

/-- Map.has. -/
def mapHas (m : List (String × AnalyticsRecord)) (k : String) : Bool :=
  m.any (fun p => p.1 = k)

/-- Processing of one analytics entry while building analyticsByKey:
set the name key (when nonempty), then the email key (when nonempty),
both to the same record. -/
def indexEntry (m : List (String × AnalyticsRecord)) (s : SpeakerAnalytic) :
    List (String × AnalyticsRecord) :=
  let keyName := norm s.name
  let keyEmail := norm s.user_email
  let record := mkRecord s
  let m1 := if keyName ≠ "" then mapSet m ("n:" ++ keyName) record else m
  if keyEmail ≠ "" then mapSet m1 ("e:" ++ keyEmail) record else m1

/-- The analyticsByKey map of determineAttendance. -/
def buildIndex (speakerAnalytics : List SpeakerAnalytic) :
    List (String × AnalyticsRecord) :=
  speakerAnalytics.foldl indexEntry []

/-- isActive from worker.js: OR of the three threshold comparisons,
with missing numeric fields read as 0 via the || 0 guards. -/
def isActive (rec : AnalyticsRecord) (th : ThresholdConfig) : Bool :=
  let w := rec.word_count
  let d := rec.duration_sec.getD 0
  let q := rec.questions
  decide (th.WORDS_MIN ≤ w) || decide (th.DURATION_MIN_SEC ≤ d) ||
    decide (th.QUESTIONS_MIN ≤ q)

/-- Result of scoreActive. -/
structure ScoreResult where
  score : JsNum
  reason : String
deriving DecidableEq, Repr

/-- scoreActive from worker.js: three weighted capped contributions
accumulated onto 0.0, clamped by Math.max(0.1, Math.min(1.0, s)), and
the reason string listing the nonzero signals. -/
def scoreActive (rec : AnalyticsRecord) (th : ThresholdConfig) : ScoreResult :=
  let w := rec.word_count
  let d := rec.duration_sec.getD 0
  let q := rec.questions
  let s1 := jsAdd (.fin 0) (jsMulC (jsMin (jsDiv w (th.WORDS_MIN * 2)) (.fin 1)) (2/5))
  let s2 := jsAdd s1 (jsMulC (jsMin (jsDiv d (th.DURATION_MIN_SEC * 2)) (.fin 1)) (2/5))
  let s3 := jsAdd s2 (jsMulC (jsMin (jsDiv q (th.QUESTIONS_MIN * 2)) (.fin 1)) (1/5))
  let score := jsMax (.fin (1/10)) (jsMin (.fin 1) s3)
  let reasons :=
    (if w ≠ 0 then [ratToJsString w ++ " words"] else []) ++
    (if d ≠ 0 then [ratToJsString d ++ "s spoken"] else []) ++
    (if q ≠ 0 then [ratToJsString q ++ " questions"] else [])
  { score := score
    reason := if reasons ≠ [] then String.intercalate "; " reasons
              else "No detectable speech" }

/-- The row the analytics pass emits for one record. -/
def analyticsRow (rec : AnalyticsRecord) (th : ThresholdConfig) : AttendanceRow :=
  { person := rec.display
    attended := isActive rec th
    confidence := (scoreActive rec th).score
    reason := (scoreActive rec th).reason }

/-- The first output loop of determineAttendance: iterate the map
entries, skipping records whose display name was already emitted. -/
def analyticsPassAux (th : ThresholdConfig) :
    List (String × AnalyticsRecord) → List AttendanceRow → List String → List AttendanceRow
  | [], rows, _ => rows
  | (_, rec) :: rest, rows, seen =>
    if rec.display ∈ seen then analyticsPassAux th rest rows seen
    else analyticsPassAux th rest (rows ++ [analyticsRow rec th]) (seen ++ [rec.display])

/-- The analytics-pass rows on their own. -/
def analyticsPassRows (idx : List (String × AnalyticsRecord)) (th : ThresholdConfig) :
    List AttendanceRow :=
  analyticsPassAux th idx [] []

/-- The row the participant pass emits for an unmatched participant. -/
def participantRow (email : String) : AttendanceRow :=
  { person := email
    attended := false
    confidence := .fin (1/2)
    reason := "Present in participant list but no speech/activity detected" }

/-- The second output loop of determineAttendance: emit a row for each
participant whose normalized email key is not in the index. -/
def participantPassAux (idx : List (String × AnalyticsRecord)) :
    List String → List AttendanceRow → List AttendanceRow
  | [], rows => rows
  | email :: rest, rows =>
    if mapHas idx ("e:" ++ norm (some email)) then participantPassAux idx rest rows
    else participantPassAux idx rest (rows ++ [participantRow email])

/-- The participant-pass rows on their own. -/
def participantPassRows (idx : List (String × AnalyticsRecord))
    (participants : List String) : List AttendanceRow :=
  participantPassAux idx participants []

/-- The row of the final fallback loop of determineAttendance. -/
def fallbackRow (email : String) : AttendanceRow :=
  { person := email
    attended := false
    confidence := .fin (2/5)
    reason := "Analytics unavailable; cannot confirm activity" }

/-- determineAttendance from worker.js.  The speakers argument is
accepted, as in the source, and never read. -/
def determineAttendance (speakers : List Speaker)
    (speakerAnalytics : List SpeakerAnalytic)
    (participants : List String) (thresholds : ThresholdConfig) :
    List AttendanceRow :=
  let analyticsByKey := buildIndex speakerAnalytics
  let rows := analyticsPassAux thresholds analyticsByKey [] []
  let rows := participantPassAux analyticsByKey participants rows
  if rows.isEmpty && !participants.isEmpty then participants.map fallbackRow
  else rows

/-- The default thresholds of the caller (env unset): 20 words,
60 seconds, 1 question. -/
def defaultThresholds : ThresholdConfig where
  WORDS_MIN := 20
  DURATION_MIN_SEC := 60
  QUESTIONS_MIN := 1

/-- Claim-side range predicate for C4: the value is a number in the
closed interval [0.1, 1.0]. -/
def jsInClosedUnit : JsNum → Bool
  | .fin q => decide (1/10 ≤ q ∧ q ≤ 1)
  | _ => false

/-- Claim side of C5: the analytics-pass rows generated by iterating
the metrics in the order they first appear in the analytics list,
deduplicating by displayName, restricted to metrics that contribute at
least one index key. -/
def claimFirstSeenAux (th : ThresholdConfig) :
    List SpeakerAnalytic → List String → List AttendanceRow
  | [], _ => []
  | s :: rest, seen =>
    if norm s.name = "" ∧ norm s.user_email = "" then claimFirstSeenAux th rest seen
    else if (mkRecord s).display ∈ seen then claimFirstSeenAux th rest seen
    else analyticsRow (mkRecord s) th ::
      claimFirstSeenAux th rest (seen ++ [(mkRecord s).display])

/-- Claim side of C5, top level. -/
def claimFirstSeenRows (sa : List SpeakerAnalytic) (th : ThresholdConfig) :
    List AttendanceRow :=
  claimFirstSeenAux th sa []

/-- Replacement of the missing numeric fields of an analytics entry
with their neutral defaults. -/
def fillDefaults (s : SpeakerAnalytic) : SpeakerAnalytic :=
  { s with
    word_count := some (s.word_count.getD 0)
    duration_sec := some (s.duration_sec.getD 0)
    questions := some (s.questions.getD 0) }

/-- The effect of fillDefaults on the derived analytics record. -/
def recFill (r : AnalyticsRecord) : AnalyticsRecord :=
  { r with duration_sec := some (r.duration_sec.getD 0) }

/-- recFill lifted to one entry of the lookup index. -/
def fillPair : String × AnalyticsRecord → String × AnalyticsRecord
  | (k, r) => (k, recFill r)

/-- An analytics entry whose name and email both normalize to the empty
string: it contributes no index key. -/
def keylessEntry : SpeakerAnalytic :=
  ⟨some "", some "  ", some 100, some 100, some 5, none⟩

/-- C5 counterexample entry: display name "X", reachable through its
email key even after a later entry overwrites the name key. -/
def entryX : SpeakerAnalytic := ⟨some "X", some "p@a", some 100, none, none, none⟩

/-- C5 counterexample entry with display name "y". -/
def entryY : SpeakerAnalytic := ⟨some "y", none, some 100, none, none, none⟩

/-- C5 counterexample entry: display name "x", whose name key collides
with the normalized name key of entryX and overwrites its record. -/
def entryXlower : SpeakerAnalytic := ⟨some "x", none, some 100, none, none, none⟩

/-- C4 counterexample entry: no measured activity at all. -/
def silentEntry : SpeakerAnalytic := ⟨some "a", none, none, none, none, none⟩

/-- C4 counterexample thresholds: a zero word threshold, non-negative. -/
def zeroWordThresholds : ThresholdConfig := ⟨0, 60, 1⟩

/-! ## Helper lemmas -/

theorem analyticsPassAux_append (th : ThresholdConfig)
    (m : List (String × AnalyticsRecord)) :
    ∀ (rows : List AttendanceRow) (seen : List String),
      analyticsPassAux th m rows seen = rows ++ analyticsPassAux th m [] seen := by
  induction m with
  | nil => intro rows seen; simp [analyticsPassAux]
  | cons p rest ih =>
    obtain ⟨k, rec⟩ := p
    intro rows seen
    by_cases h : rec.display ∈ seen
    · simp only [analyticsPassAux, h, ite_true]
      exact ih rows seen
    · simp only [analyticsPassAux, h, ite_false]
      rw [ih (rows ++ [analyticsRow rec th]) (seen ++ [rec.display]),
        ih ([] ++ [analyticsRow rec th]) (seen ++ [rec.display])]
      simp

theorem participantPassAux_append (idx : List (String × AnalyticsRecord)) :
    ∀ (parts : List String) (rows : List AttendanceRow),
      participantPassAux idx parts rows = rows ++ participantPassAux idx parts [] := by
  intro parts
  induction parts with
  | nil => intro rows; simp [participantPassAux]
  | cons e rest ih =>
    intro rows
    by_cases h : mapHas idx ("e:" ++ norm (some e)) = true
    · simp only [participantPassAux, h, ite_true]
      exact ih rows
    · simp only [participantPassAux, h, ite_false]
      rw [ih (rows ++ [participantRow e]), ih ([] ++ [participantRow e])]
      simp

theorem mapSet_ne_nil (m : List (String × AnalyticsRecord)) (k : String)
    (v : AnalyticsRecord) : mapSet m k v ≠ [] := by
  cases m with
  | nil => simp [mapSet]
  | cons p rest =>
    obtain ⟨k0, v0⟩ := p
    by_cases h : k0 = k <;> simp [mapSet, h]

theorem indexEntry_eq_nil_iff (m : List (String × AnalyticsRecord))
    (s : SpeakerAnalytic) :
    indexEntry m s = [] ↔ m = [] ∧ norm s.name = "" ∧ norm s.user_email = "" := by
  unfold indexEntry
  by_cases h1 : norm s.name = "" <;> by_cases h2 : norm s.user_email = "" <;>
    simp [h1, h2, mapSet_ne_nil]

theorem foldl_indexEntry_eq_nil_iff (sa : List SpeakerAnalytic) :
    ∀ (acc : List (String × AnalyticsRecord)),
      sa.foldl indexEntry acc = [] ↔
        acc = [] ∧ ∀ s ∈ sa, norm s.name = "" ∧ norm s.user_email = "" := by
  induction sa with
  | nil => intro acc; simp
  | cons s rest ih =>
    intro acc
    rw [List.foldl_cons, ih, indexEntry_eq_nil_iff]
    constructor
    · rintro ⟨⟨ha, hn, he⟩, hrest⟩
      exact ⟨ha, by simpa [hn, he] using hrest⟩
    · rintro ⟨ha, hall⟩
      refine ⟨⟨ha, (hall s (by simp)).1, (hall s (by simp)).2⟩, ?_⟩
      intro t ht
      exact hall t (by simp [ht])

theorem buildIndex_eq_nil_iff (sa : List SpeakerAnalytic) :
    buildIndex sa = [] ↔ ∀ s ∈ sa, norm s.name = "" ∧ norm s.user_email = "" := by
  rw [buildIndex, foldl_indexEntry_eq_nil_iff]
  simp

theorem analyticsPassRows_ne_nil (idx : List (String × AnalyticsRecord))
    (th : ThresholdConfig) (h : idx ≠ []) : analyticsPassRows idx th ≠ [] := by
  cases idx with
  | nil => exact absurd rfl h
  | cons p rest =>
    obtain ⟨k, rec⟩ := p
    unfold analyticsPassRows
    simp only [analyticsPassAux, List.not_mem_nil, if_false]
    rw [analyticsPassAux_append]
    simp

theorem participantPassRows_nil_idx (parts : List String) :
    participantPassRows [] parts = parts.map participantRow := by
  induction parts with
  | nil => rfl
  | cons e rest ih =>
    unfold participantPassRows at *
    have hm : mapHas [] ("e:" ++ norm (some e)) = false := rfl
    simp only [participantPassAux, hm, Bool.false_eq_true, ite_false, List.nil_append]
    rw [participantPassAux_append [] rest [participantRow e]]
    simp [ih]

theorem determineAttendance_eq_passes (sp : List Speaker)
    (sa : List SpeakerAnalytic) (parts : List String) (th : ThresholdConfig) :
    determineAttendance sp sa parts th =
      analyticsPassRows (buildIndex sa) th ++
        participantPassRows (buildIndex sa) parts := by
  have hA : analyticsPassAux th (buildIndex sa) [] [] =
      analyticsPassRows (buildIndex sa) th := rfl
  have hP : participantPassAux (buildIndex sa) parts [] =
      participantPassRows (buildIndex sa) parts := rfl
  simp only [determineAttendance]
  rw [participantPassAux_append (buildIndex sa) parts
    (analyticsPassAux th (buildIndex sa) [] []), hA, hP]
  by_cases hp : parts = []
  · subst hp; simp
  · have hne : analyticsPassRows (buildIndex sa) th ++
        participantPassRows (buildIndex sa) parts ≠ [] := by
      by_cases hi : buildIndex sa = []
      · rw [hi, participantPassRows_nil_idx]
        have hmap : parts.map participantRow ≠ [] := by simpa using hp
        simpa [analyticsPassRows, analyticsPassAux] using hmap
      · have h1 := analyticsPassRows_ne_nil (buildIndex sa) th hi
        simp [h1]
    have hcond : ((analyticsPassRows (buildIndex sa) th ++
        participantPassRows (buildIndex sa) parts).isEmpty && !parts.isEmpty) = false := by
      simp [List.isEmpty_iff, hne]
    rw [hcond]
    simp

theorem analyticsPassAux_person_nodup (th : ThresholdConfig)
    (m : List (String × AnalyticsRecord)) :
    ∀ (seen : List String),
      ((analyticsPassAux th m [] seen).map AttendanceRow.person).Nodup ∧
        ∀ p ∈ (analyticsPassAux th m [] seen).map AttendanceRow.person, p ∉ seen := by
  induction m with
  | nil => intro seen; simp [analyticsPassAux]
  | cons pr rest ih =>
    obtain ⟨k, rec⟩ := pr
    intro seen
    by_cases h : rec.display ∈ seen
    · simp only [analyticsPassAux, h, ite_true]
      exact ih seen
    · simp only [analyticsPassAux, h, ite_false]
      rw [analyticsPassAux_append th rest ([] ++ [analyticsRow rec th])
        (seen ++ [rec.display])]
      obtain ⟨hnd, hni⟩ := ih (seen ++ [rec.display])
      simp only [List.nil_append, List.singleton_append, List.map_cons,
        List.nodup_cons, List.mem_cons, analyticsRow]
      refine ⟨⟨?_, hnd⟩, ?_⟩
      · intro hmem
        have := hni _ hmem
        simp at this
      · rintro p (rfl | hp)
        · exact h
        · have := hni _ hp
          intro hps
          exact this (by simp [hps])

theorem mem_analyticsPassAux (th : ThresholdConfig)
    (m : List (String × AnalyticsRecord)) :
    ∀ (seen : List String) (r : AttendanceRow),
      r ∈ analyticsPassAux th m [] seen → ∃ rec, r = analyticsRow rec th := by
  induction m with
  | nil => intro seen r hr; simp [analyticsPassAux] at hr
  | cons pr rest ih =>
    obtain ⟨k, rec⟩ := pr
    intro seen r hr
    by_cases h : rec.display ∈ seen
    · simp only [analyticsPassAux, h, ite_true] at hr
      exact ih seen r hr
    · simp only [analyticsPassAux, h, ite_false] at hr
      rw [analyticsPassAux_append th rest ([] ++ [analyticsRow rec th])
        (seen ++ [rec.display])] at hr
      simp only [List.nil_append, List.singleton_append, List.mem_cons] at hr
      rcases hr with rfl | hr
      · exact ⟨rec, rfl⟩
      · exact ih _ r hr

theorem mem_participantPassAux (idx : List (String × AnalyticsRecord)) :
    ∀ (parts : List String) (r : AttendanceRow),
      r ∈ participantPassAux idx parts [] → ∃ e, r = participantRow e := by
  intro parts
  induction parts with
  | nil => intro r hr; simp [participantPassAux] at hr
  | cons e rest ih =>
    intro r hr
    by_cases h : mapHas idx ("e:" ++ norm (some e)) = true
    · simp only [participantPassAux, h, ite_true] at hr
      exact ih r hr
    · simp only [participantPassAux, h, ite_false] at hr
      rw [participantPassAux_append idx rest ([] ++ [participantRow e])] at hr
      simp only [List.nil_append, List.singleton_append, Bool.false_eq_true,
        ite_false, List.mem_cons] at hr
      rcases hr with rfl | hr
      · exact ⟨e, rfl⟩
      · exact ih r hr

/-! ## Claims -/

/-- C1: for every speaker metric and every threshold configuration, the
activity scorer's attended verdict is true iff wordCount is at least
minWords, or durationSec at least minDurationSec, or questionCount at
least minQuestions, any missing numeric field read as 0; it is false
exactly when all three comparisons fail. -/
theorem c1_attended_iff (s : SpeakerAnalytic) (th : ThresholdConfig) :
    isActive (mkRecord s) th = true ↔
      (th.WORDS_MIN ≤ s.word_count.getD 0 ∨
        th.DURATION_MIN_SEC ≤ s.duration_sec.getD 0 ∨
        th.QUESTIONS_MIN ≤ s.questions.getD 0) := by
  simp [isActive, mkRecord, or_assoc]

/-- C2 (code evaluated at the failing input): with an empty
speaker-metrics list and participant list ["x@co.com"], under default
thresholds the resolver emits exactly one participant-pass row with
confidence 0.5 and reason "Present in participant list but no
speech/activity detected", not the fallback row with confidence 0.4 and
reason "Analytics unavailable; cannot confirm activity" the claim
describes. -/
theorem c2_scenario_actual :
    determineAttendance [] [] ["x@co.com"] defaultThresholds =
        [participantRow "x@co.com"] ∧
      participantRow "x@co.com" ≠ fallbackRow "x@co.com" := by
  refine ⟨rfl, ?_⟩
  intro h
  exact absurd (congrArg AttendanceRow.reason h) (by decide)

/-- C3 (counterexample to the claim as stated): an analytics entry whose
name and email both normalize to the empty string yields an empty output
even though the speaker-metrics list is non-empty, so "output empty iff
both inputs empty" fails. -/
theorem c3_counterexample :
    ¬(determineAttendance [] [keylessEntry] [] defaultThresholds = [] ↔
        ([keylessEntry] = ([] : List SpeakerAnalytic) ∧
          ([] : List String) = ([] : List String))) := by
  intro h
  have h1 : determineAttendance [] [keylessEntry] [] defaultThresholds = [] := rfl
  exact absurd (h.mp h1).1 (by simp)

/-- C3 (amended): the resolver's output is empty iff the participant
list is empty and every analytics entry has both its normalized name and
normalized email empty (so the lookup index is empty). -/
theorem c3_empty_iff (sp : List Speaker) (sa : List SpeakerAnalytic)
    (parts : List String) (th : ThresholdConfig) :
    determineAttendance sp sa parts th = [] ↔
      (parts = [] ∧ ∀ s ∈ sa, norm s.name = "" ∧ norm s.user_email = "") := by
  rw [determineAttendance_eq_passes, List.append_eq_nil]
  constructor
  · rintro ⟨hA, hP⟩
    have hi : buildIndex sa = [] := by
      by_contra hne
      exact analyticsPassRows_ne_nil _ th hne hA
    have hkeys := (buildIndex_eq_nil_iff sa).mp hi
    have hparts : parts = [] := by
      rw [hi, participantPassRows_nil_idx] at hP
      simpa using hP
    exact ⟨hparts, hkeys⟩
  · rintro ⟨hp, hkeys⟩
    have hi : buildIndex sa = [] := (buildIndex_eq_nil_iff sa).mpr hkeys
    subst hp
    rw [hi]
    exact ⟨rfl, rfl⟩

/-- C5 (counterexample to the claim as stated): when a later metric
overwrites an earlier metric's normalized name key, the map keeps the
key at its first position, so the analytics rows are not emitted in the
order the metrics (or their display names) first appear in the analytics
list. -/
theorem c5_counterexample :
    determineAttendance [] [entryX, entryY, entryXlower] [] defaultThresholds ≠
      claimFirstSeenRows [entryX, entryY, entryXlower] defaultThresholds ++
        participantPassRows (buildIndex [entryX, entryY, entryXlower]) [] := by
  intro h
  have hL : (determineAttendance [] [entryX, entryY, entryXlower] []
      defaultThresholds).map AttendanceRow.person = ["x", "X", "y"] := rfl
  have hR : ((claimFirstSeenRows [entryX, entryY, entryXlower] defaultThresholds ++
      participantPassRows (buildIndex [entryX, entryY, entryXlower]) []).map
        AttendanceRow.person) = ["X", "y", "x"] := rfl
  rw [h, hR] at hL
  exact absurd hL (by decide)

/-- C5 (amended): the output is always the analytics-pass rows — at most
one per distinct displayName, in the key-insertion order of the lookup
index (a later metric with a colliding normalized key overwrites the
stored record but not the key position) — followed by the
participant-pass rows in participant-list order, with no re-sorting. -/
theorem c5_pass_structure (sp : List Speaker) (sa : List SpeakerAnalytic)
    (parts : List String) (th : ThresholdConfig) :
    determineAttendance sp sa parts th =
        analyticsPassRows (buildIndex sa) th ++
          participantPassRows (buildIndex sa) parts ∧
      ((analyticsPassRows (buildIndex sa) th).map AttendanceRow.person).Nodup :=
  ⟨determineAttendance_eq_passes sp sa parts th,
    (analyticsPassAux_person_nodup th (buildIndex sa) []).1⟩

/-- C8: the resolver is deterministic — two invocations with identical
speaker-metrics list, participant list and threshold configuration
produce identical output rows (the embedding is a pure function; the
source performs no I/O, reads no clock and uses no randomness). -/
theorem c8_deterministic (sp1 sp2 : List Speaker)
    (sa1 sa2 : List SpeakerAnalytic) (p1 p2 : List String)
    (th1 th2 : ThresholdConfig)
    (hsa : sa1 = sa2) (hp : p1 = p2) (hth : th1 = th2) :
    determineAttendance sp1 sa1 p1 th1 = determineAttendance sp2 sa2 p2 th2 := by
  subst hsa; subst hp; subst hth; rfl

theorem c8_deterministic_witness :
    determineAttendance [] [] ["x@co.com"] defaultThresholds =
      determineAttendance [⟨some "id1", some "Bob"⟩] [] ["x@co.com"]
        defaultThresholds :=
  c8_deterministic [] [⟨some "id1", some "Bob"⟩] [] [] ["x@co.com"] ["x@co.com"]
    defaultThresholds defaultThresholds rfl rfl rfl

/-- C9: the resolver's output does not depend on its speakers argument —
the parameter is accepted but never read. -/
theorem c9_speakers_ignored (sp1 sp2 : List Speaker)
    (sa : List SpeakerAnalytic) (parts : List String) (th : ThresholdConfig) :
    determineAttendance sp1 sa parts th = determineAttendance sp2 sa parts th :=
  rfl

/-- C10: an analytics entry whose name and email both normalize to the
empty string contributes nothing — removing it from any position leaves
the resolver's output unchanged. -/
theorem c10_keyless_entry_inert (sp : List Speaker)
    (pre post : List SpeakerAnalytic) (entry : SpeakerAnalytic)
    (parts : List String) (th : ThresholdConfig)
    (h1 : norm entry.name = "") (h2 : norm entry.user_email = "") :
    determineAttendance sp (pre ++ entry :: post) parts th =
      determineAttendance sp (pre ++ post) parts th := by
  have hidx : buildIndex (pre ++ entry :: post) = buildIndex (pre ++ post) := by
    unfold buildIndex
    rw [List.foldl_append, List.foldl_append, List.foldl_cons]
    have hse : indexEntry (pre.foldl indexEntry []) entry =
        pre.foldl indexEntry [] := by
      unfold indexEntry
      simp [h1, h2]
    rw [hse]
  rw [determineAttendance_eq_passes, determineAttendance_eq_passes, hidx]

theorem c10_keyless_entry_inert_witness :
    norm keylessEntry.name = "" ∧ norm keylessEntry.user_email = "" ∧
      determineAttendance [] ([entryY] ++ keylessEntry :: []) ["a@b"]
          defaultThresholds =
        determineAttendance [] ([entryY] ++ []) ["a@b"] defaultThresholds :=
  ⟨rfl, rfl,
    c10_keyless_entry_inert [] [entryY] [] keylessEntry ["a@b"] defaultThresholds
      rfl rfl⟩

theorem append_getLast (p t : String) (c : Char) (h : t.data.getLast? = some c) :
    (p ++ t).data.getLast? = some c := by
  rw [String.data_append, List.getLast?_append, h]
  rfl

theorem ne_of_getLast_ne (r s : String) (c c' : Char)
    (hr : r.data.getLast? = some c) (hs : s.data.getLast? = some c')
    (hcc : c ≠ c') : r ≠ s := by
  intro h
  subst h
  rw [hr] at hs
  exact hcc (Option.some.inj hs)

theorem intercalate_one (s a : String) : String.intercalate s [a] = a := rfl

theorem intercalate_two (s a b : String) :
    String.intercalate s [a, b] = a ++ s ++ b := rfl

theorem intercalate_three (s a b c : String) :
    String.intercalate s [a, b, c] = a ++ s ++ b ++ s ++ c := rfl

theorem scoreActive_reason_ne_fallback (rec : AnalyticsRecord)
    (th : ThresholdConfig) :
    (scoreActive rec th).reason ≠ "Analytics unavailable; cannot confirm activity" := by
  by_cases hw : rec.word_count = 0
  · by_cases hd : rec.duration_sec.getD 0 = 0
    · by_cases hq : rec.questions = 0
      · simp [scoreActive, hw, hd, hq]
      · simp [scoreActive, hw, hd, hq]
        rw [intercalate_one]
        exact ne_of_getLast_ne _ _ 's' 'y'
          (append_getLast _ _ _ (by decide)) (by decide) (by decide)
    · by_cases hq : rec.questions = 0
      · simp [scoreActive, hw, hd, hq]
        rw [intercalate_one]
        exact ne_of_getLast_ne _ _ 'n' 'y'
          (append_getLast _ _ _ (by decide)) (by decide) (by decide)
      · simp [scoreActive, hw, hd, hq]
        rw [intercalate_two]
        exact ne_of_getLast_ne _ _ 's' 'y'
          (append_getLast _ _ _ (append_getLast _ _ _ (by decide)))
          (by decide) (by decide)
  · by_cases hd : rec.duration_sec.getD 0 = 0
    · by_cases hq : rec.questions = 0
      · simp [scoreActive, hw, hd, hq]
        rw [intercalate_one]
        exact ne_of_getLast_ne _ _ 's' 'y'
          (append_getLast _ _ _ (by decide)) (by decide) (by decide)
      · simp [scoreActive, hw, hd, hq]
        rw [intercalate_two]
        exact ne_of_getLast_ne _ _ 's' 'y'
          (append_getLast _ _ _ (append_getLast _ _ _ (by decide)))
          (by decide) (by decide)
    · by_cases hq : rec.questions = 0
      · simp [scoreActive, hw, hd, hq]
        rw [intercalate_two]
        exact ne_of_getLast_ne _ _ 'n' 'y'
          (append_getLast _ _ _ (append_getLast _ _ _ (by decide)))
          (by decide) (by decide)
      · simp [scoreActive, hw, hd, hq]
        rw [intercalate_three]
        exact ne_of_getLast_ne _ _ 's' 'y'
          (append_getLast _ _ _ (append_getLast _ _ _ (by decide)))
          (by decide) (by decide)

/-- C6: rows of the fallback shape (attended false, confidence 0.4,
reason "Analytics unavailable; cannot confirm activity") appear in the
output only when the speaker-metrics list is empty and the participant
list is non-empty.  In fact no reachable output row ever carries the
fallback reason (the fallback loop is dead code), so the necessary
condition holds vacuously. -/
theorem c6_fallback_only_when (sp : List Speaker) (sa : List SpeakerAnalytic)
    (parts : List String) (th : ThresholdConfig) :
    (∀ r ∈ determineAttendance sp sa parts th,
        r.reason ≠ "Analytics unavailable; cannot confirm activity") ∨
      (sa = [] ∧ parts ≠ []) := by
  left
  intro r hr
  rw [determineAttendance_eq_passes] at hr
  rcases List.mem_append.mp hr with h | h
  · obtain ⟨rec, rfl⟩ := mem_analyticsPassAux th (buildIndex sa) [] r h
    exact scoreActive_reason_ne_fallback rec th
  · obtain ⟨e, rfl⟩ := mem_participantPassAux (buildIndex sa) parts r h
    simp [participantRow]

theorem mkRecord_fillDefaults (s : SpeakerAnalytic) :
    mkRecord (fillDefaults s) = recFill (mkRecord s) := by
  simp [mkRecord, fillDefaults, recFill]

theorem isActive_recFill (r : AnalyticsRecord) (th : ThresholdConfig) :
    isActive (recFill r) th = isActive r th := by
  simp [isActive, recFill]

theorem scoreActive_recFill (r : AnalyticsRecord) (th : ThresholdConfig) :
    scoreActive (recFill r) th = scoreActive r th := by
  simp [scoreActive, recFill]

theorem recFill_display (r : AnalyticsRecord) : (recFill r).display = r.display :=
  rfl

theorem analyticsRow_recFill (r : AnalyticsRecord) (th : ThresholdConfig) :
    analyticsRow (recFill r) th = analyticsRow r th := by
  simp [analyticsRow, isActive_recFill, scoreActive_recFill, recFill_display]

theorem mapSet_fillPair (m : List (String × AnalyticsRecord)) (k : String)
    (v : AnalyticsRecord) :
    mapSet (m.map fillPair) k (recFill v) = (mapSet m k v).map fillPair := by
  induction m with
  | nil => simp [mapSet, fillPair]
  | cons p rest ih =>
    obtain ⟨k0, v0⟩ := p
    by_cases h : k0 = k
    · simp [mapSet, fillPair, h]
    · simp [mapSet, fillPair, h, ih]

theorem mapHas_fillPair (m : List (String × AnalyticsRecord)) (k : String) :
    mapHas (m.map fillPair) k = mapHas m k := by
  induction m with
  | nil => rfl
  | cons p rest ih =>
    obtain ⟨k0, v0⟩ := p
    simp [mapHas, fillPair] at ih ⊢
    rw [ih]

theorem indexEntry_fillPair (m : List (String × AnalyticsRecord))
    (s : SpeakerAnalytic) :
    indexEntry (m.map fillPair) (fillDefaults s) = (indexEntry m s).map fillPair := by
  have hname : (fillDefaults s).name = s.name := rfl
  have hemail : (fillDefaults s).user_email = s.user_email := rfl
  simp only [indexEntry, hname, hemail, mkRecord_fillDefaults]
  by_cases h1 : norm s.name = "" <;> by_cases h2 : norm s.user_email = "" <;>
    simp [h1, h2, mapSet_fillPair]

theorem buildIndex_fillDefaults (sa : List SpeakerAnalytic) :
    buildIndex (sa.map fillDefaults) = (buildIndex sa).map fillPair := by
  have gen : ∀ acc, (sa.map fillDefaults).foldl indexEntry (acc.map fillPair) =
      (sa.foldl indexEntry acc).map fillPair := by
    induction sa with
    | nil => intro acc; simp
    | cons s rest ih =>
      intro acc
      simp only [List.map_cons, List.foldl_cons]
      rw [indexEntry_fillPair, ih (indexEntry acc s)]
  have h0 := gen []
  simpa [buildIndex] using h0

theorem analyticsPassAux_fillPair (th : ThresholdConfig)
    (m : List (String × AnalyticsRecord)) :
    ∀ (rows : List AttendanceRow) (seen : List String),
      analyticsPassAux th (m.map fillPair) rows seen =
        analyticsPassAux th m rows seen := by
  induction m with
  | nil => intro rows seen; rfl
  | cons p rest ih =>
    obtain ⟨k, rec⟩ := p
    intro rows seen
    have hd : (recFill rec).display = rec.display := rfl
    by_cases h : rec.display ∈ seen
    · simp only [List.map_cons, fillPair, analyticsPassAux, hd, h, ite_true]
      exact ih rows seen
    · simp only [List.map_cons, fillPair, analyticsPassAux, hd, h, ite_false]
      rw [analyticsRow_recFill]
      exact ih (rows ++ [analyticsRow rec th]) (seen ++ [rec.display])

theorem participantPassAux_fillPair (idx : List (String × AnalyticsRecord)) :
    ∀ (parts : List String) (rows : List AttendanceRow),
      participantPassAux (idx.map fillPair) parts rows =
        participantPassAux idx parts rows := by
  intro parts
  induction parts with
  | nil => intro rows; rfl
  | cons e rest ih =>
    intro rows
    by_cases h : mapHas idx ("e:" ++ norm (some e)) = true
    · simp only [participantPassAux, mapHas_fillPair, h, ite_true]
      exact ih rows
    · simp only [participantPassAux, mapHas_fillPair, h, Bool.false_eq_true,
        ite_false]
      exact ih (rows ++ [participantRow e])

/-- C7: the resolver is total on well-typed input by construction (it is
a total function of its arguments with no failure path), and missing
numeric fields are substituted with the neutral default 0: replacing
every missing wordCount, durationSec and questionCount by an explicit 0
leaves the output unchanged. -/
theorem c7_missing_fields_default (sp : List Speaker)
    (sa : List SpeakerAnalytic) (parts : List String) (th : ThresholdConfig) :
    determineAttendance sp (sa.map fillDefaults) parts th =
      determineAttendance sp sa parts th := by
  rw [determineAttendance_eq_passes, determineAttendance_eq_passes,
    buildIndex_fillDefaults]
  unfold analyticsPassRows participantPassRows
  rw [analyticsPassAux_fillPair, participantPassAux_fillPair]

theorem contrib_fin (x t c : ℚ) (hx : 0 ≤ x) (h : ¬(x = 0 ∧ t = 0)) :
    ∃ v : ℚ, jsMulC (jsMin (jsDiv x (t * 2)) (.fin 1)) c = .fin v := by
  by_cases ht : t * 2 = 0
  · have ht0 : t = 0 := by
      rcases mul_eq_zero.mp ht with h' | h'
      · exact h'
      · norm_num at h'
    have hx0 : x ≠ 0 := fun hx0 => h ⟨hx0, ht0⟩
    have hxpos : 0 < x := lt_of_le_of_ne hx (Ne.symm hx0)
    refine ⟨1 * c, ?_⟩
    simp [jsDiv, ht, hxpos, jsMin, jsMulC]
  · refine ⟨min (x / (t * 2)) 1 * c, ?_⟩
    simp [jsDiv, ht, jsMin, jsMulC]

/-- C4 (amended): for every non-negative (possibly missing) metric and
every non-negative threshold configuration in which no signal has both
its measured value and its threshold equal to zero, the confidence lies
in [0.1, 1.0].  (When some signal has value 0 and threshold 0, the
division 0/0 makes the score NaN, see the counterexample.) -/
theorem c4_confidence_in_range (s : SpeakerAnalytic) (th : ThresholdConfig)
    (hw : 0 ≤ s.word_count.getD 0) (hd : 0 ≤ s.duration_sec.getD 0)
    (hq : 0 ≤ s.questions.getD 0)
    (htw : 0 ≤ th.WORDS_MIN) (htd : 0 ≤ th.DURATION_MIN_SEC)
    (htq : 0 ≤ th.QUESTIONS_MIN)
    (h1 : ¬(s.word_count.getD 0 = 0 ∧ th.WORDS_MIN = 0))
    (h2 : ¬(s.duration_sec.getD 0 = 0 ∧ th.DURATION_MIN_SEC = 0))
    (h3 : ¬(s.questions.getD 0 = 0 ∧ th.QUESTIONS_MIN = 0)) :
    jsInClosedUnit (scoreActive (mkRecord s) th).score = true := by
  obtain ⟨v1, hv1⟩ := contrib_fin (s.word_count.getD 0) th.WORDS_MIN (2/5) hw h1
  obtain ⟨v2, hv2⟩ :=
    contrib_fin (s.duration_sec.getD 0) th.DURATION_MIN_SEC (2/5) hd h2
  obtain ⟨v3, hv3⟩ := contrib_fin (s.questions.getD 0) th.QUESTIONS_MIN (1/5) hq h3
  have hrw : (mkRecord s).word_count = s.word_count.getD 0 := rfl
  have hrd : (mkRecord s).duration_sec.getD 0 = s.duration_sec.getD 0 := rfl
  have hrq : (mkRecord s).questions = s.questions.getD 0 := rfl
  simp only [scoreActive, hrw, hrd, hrq]
  rw [hv1, hv2, hv3]
  simp only [jsAdd, jsMin, jsMax, jsInClosedUnit]
  rw [decide_eq_true_eq]
  constructor
  · exact le_max_left _ _
  · exact max_le (by norm_num) (min_le_left _ _)

theorem c4_confidence_in_range_witness :
    jsInClosedUnit (scoreActive (mkRecord silentEntry) defaultThresholds).score =
      true :=
  c4_confidence_in_range silentEntry defaultThresholds (by decide) (by decide)
    (by decide) (by decide) (by decide) (by decide) (by decide) (by decide)
    (by decide)

/-- C4 (counterexample to the claim as stated): with the non-negative
threshold configuration (0, 60, 1) and a metric with no measured
activity, the division 0/0 produces NaN, which propagates through the
clamp, so the confidence is not a number in [0.1, 1.0]. -/
theorem c4_counterexample :
    jsInClosedUnit (scoreActive (mkRecord silentEntry) zeroWordThresholds).score =
        false ∧
      (scoreActive (mkRecord silentEntry) zeroWordThresholds).score = JsNum.nan := by
  constructor
  · with_unfolding_all rfl
  · with_unfolding_all rfl
